import Mathlib

/-!
Verification of the operational scripts in scripts/test-pipeline.js and
scripts/setup.js. Every external call (AWS SDK, filesystem, child process)
is modelled by an environment that fixes its outcome; each script becomes a
pure function of that environment returning its result together with a trace
of observable events (checks performed, scans, sleeps, uploads, exit codes).
-/

namespace LocalstackServerless

/-- Outcome of one DynamoDB scan attempt inside the polling loop of
waitForProcessing: the scan returns at least one item, returns no items,
or throws. -/
inductive Attempt where
  | nonEmpty
  | empty
  | err
deriving DecidableEq, Repr

/-- Observable events of the test runner scripts/test-pipeline.js. -/
inductive Ev where
  | checkLocalStack
  | checkBucket
  | checkTable
  | statFixture
  | readFixture
  | putObject
  | sleepMs (ms : Nat)
  | scan (i : Nat)
  | verifyScan
  | apiInvoke
  | cleanup
deriving DecidableEq, Repr

/-- Outcome of the verification scan in verifyData: the scan throws, or
returns a list of records, a record being represented by the list of its
field names. -/
inductive VerifyOutcome where
  | err
  | items (recs : List (List String))
deriving DecidableEq, Repr

/-- Outcome of parsing the body field of the Lambda response in testApi. -/
inductive BodyOutcome where
  | unparseable
  | parsed (ident : Option String)
deriving DecidableEq, Repr

/-- Outcome of the lambda.invoke call in testApi: the invoke throws, the
returned payload is not JSON, or the payload parses to a response with a
status code and a body. -/
inductive ApiOutcome where
  | invokeErr
  | payloadUnparseable
  | resp (statusCode : Int) (body : BodyOutcome)
deriving DecidableEq, Repr

/-- Environment fixing the outcome of every external call the test runner
makes. readFixtureThrows fixes whether fs.readFileSync throws when the
fixture exists (unreadable file or a directory); that call sits outside the
try/catch of uploadTestFile, so its throw escapes the step. -/
structure Env where
  localStackUp : Bool
  bucketExists : Bool
  tableAccessible : Bool
  fixtureExists : Bool
  readFixtureThrows : Bool
  putObjectOk : Bool
  pollOutcomes : Nat → Attempt
  verifyOutcome : VerifyOutcome
  apiOutcome : ApiOutcome

/-- checkLocalStack: s3.listBuckets succeeds iff the emulator is up. -/
def checkLocalStack (env : Env) : Bool := env.localStackUp

/-- checkBucket: s3.headBucket on the fixed bucket succeeds iff it exists. -/
def checkBucket (env : Env) : Bool := env.bucketExists

/-- checkTable: the probe scan with Limit 1 succeeds iff the table is
accessible. -/
def checkTable (env : Env) : Bool := env.tableAccessible

/-- How a run of uploadTestFile ends: the function returns a boolean, or
the fixture read throws and the exception escapes the function (it is the
one call of the step outside its try/catch). -/
inductive UploadResult where
  | ok (passed : Bool)
  | thrown
deriving DecidableEq, Repr

/-- uploadTestFile: if the fixture file is absent, return false without
reading it or calling putObject; otherwise read it with fs.readFileSync,
whose throw is uncaught and escapes, and then attempt the putObject call,
whose try/catch yields the boolean result. -/
def uploadTestFile (env : Env) : UploadResult × List Ev :=
  if env.fixtureExists = false then
    (UploadResult.ok false, [Ev.statFixture])
  else if env.readFixtureThrows then
    (UploadResult.thrown, [Ev.statFixture, Ev.readFixture])
  else
    (UploadResult.ok env.putObjectOk, [Ev.statFixture, Ev.readFixture, Ev.putObject])

/-- The for loop of waitForProcessing, at loop index i with the given number
of iterations left. A non-empty scan returns true at once; an empty scan
sleeps the interval and continues; a scan that throws is caught and
continues without sleeping. -/
def wfpAux (f : Nat → Attempt) (interval : Nat) (i : Nat) : Nat → Bool × List Ev
  | 0 => (false, [])
  | n + 1 =>
    match f i with
    | Attempt.nonEmpty => (true, [Ev.scan i])
    | Attempt.empty =>
      ((wfpAux f interval (i + 1) n).1,
        Ev.scan i :: Ev.sleepMs interval :: (wfpAux f interval (i + 1) n).2)
    | Attempt.err =>
      ((wfpAux f interval (i + 1) n).1, Ev.scan i :: (wfpAux f interval (i + 1) n).2)

/-- waitForProcessing with attempt budget maxAttempts and sleep interval in
milliseconds; the source defaults are 10 attempts and 2000 ms. -/
def waitForProcessing (f : Nat → Attempt) (maxAttempts : Nat) (interval : Nat) :
    Bool × List Ev :=
  wfpAux f interval 0 maxAttempts

/-- Whether an event is a table scan. -/
def isScan : Ev → Bool
  | Ev.scan _ => true
  | _ => false

/-- Whether an event is a sleep. -/
def isSleep : Ev → Bool
  | Ev.sleepMs _ => true
  | _ => false

/-- Number of scan events in a trace. -/
def numScans : List Ev → Nat
  | [] => 0
  | e :: l => (if isScan e then 1 else 0) + numScans l

/-- Number of sleep events in a trace. -/
def numSleeps : List Ev → Nat
  | [] => 0
  | e :: l => (if isSleep e then 1 else 0) + numSleeps l

/-- Number of indices k with i ≤ k < i + n whose scan outcome is empty. -/
def countEmptiesFrom (f : Nat → Attempt) (i : Nat) : Nat → Nat
  | 0 => 0
  | n + 1 => (if f i = Attempt.empty then 1 else 0) + countEmptiesFrom f (i + 1) n

/-- The list of fields verifyData requires of the first returned record. -/
def requiredFields : List String := ["id", "timestamp", "nome", "preco", "source_file"]

/-- The fields of requiredFields absent from a record. -/
def missingFields (r : List String) : List String :=
  requiredFields.filter (fun field => !(r.contains field))

/-- verifyData: scan the table with Limit 100; report failure if the scan
throws or no record exists; otherwise check the first record for the
required fields, warn about each missing one, and report success. The
second component is the list of warned-about missing fields. -/
def verifyData (o : VerifyOutcome) : Bool × List String :=
  match o with
  | VerifyOutcome.err => (false, [])
  | VerifyOutcome.items [] => (false, [])
  | VerifyOutcome.items (first :: _) => (true, missingFields first)

/-- testApi: invoke CreateRecordFunction with the fixed valid payload; on a
parsed response with status code 201, parse the body and report its id
(second component) with success; any throw, unparseable payload or body, or
other status code yields failure. -/
def testApi (o : ApiOutcome) : Bool × Option (Option String) :=
  match o with
  | ApiOutcome.invokeErr => (false, none)
  | ApiOutcome.payloadUnparseable => (false, none)
  | ApiOutcome.resp statusCode body =>
    if statusCode = 201 then
      match body with
      | BodyOutcome.unparseable => (false, none)
      | BodyOutcome.parsed ident => (true, some ident)
    else
      (false, none)

/-- Result of a run of the test runner: the process exit code, the final
value of the allPassed flag (none when the run aborted before reaching the
mid-pipeline steps), and the trace of events. -/
structure MainResult where
  exitCode : Nat
  allPassed : Option Bool
  events : List Ev
deriving DecidableEq, Repr

/-- main of scripts/test-pipeline.js: abort with exit code 1 if the emulator
check fails, then if the bucket check or (short-circuited) the table check
fails; otherwise run upload, a 3000 ms sleep, polling with the default
budget of 10 attempts at 2000 ms, verification, a 2000 ms sleep, the API
test and cleanup, recording each caught step failure only in the allPassed
flag, and end with implicit exit code 0. When the fixture read throws, the
exception escapes uploadTestFile and the top-level catch handler on the
main() promise logs it and exits with code 1: no later step runs and no
summary is printed. -/
def main (env : Env) : MainResult :=
  if checkLocalStack env = false then
    { exitCode := 1, allPassed := none, events := [Ev.checkLocalStack] }
  else if checkBucket env = false then
    { exitCode := 1, allPassed := none, events := [Ev.checkLocalStack, Ev.checkBucket] }
  else if checkTable env = false then
    { exitCode := 1, allPassed := none,
      events := [Ev.checkLocalStack, Ev.checkBucket, Ev.checkTable] }
  else
    match (uploadTestFile env).1 with
    | UploadResult.thrown =>
      { exitCode := 1, allPassed := none,
        events := [Ev.checkLocalStack, Ev.checkBucket, Ev.checkTable] ++
          (uploadTestFile env).2 }
    | UploadResult.ok passed =>
      { exitCode := 0,
        allPassed := some (passed &&
          (waitForProcessing env.pollOutcomes 10 2000).1 &&
          (verifyData env.verifyOutcome).1 && (testApi env.apiOutcome).1),
        events :=
          [Ev.checkLocalStack, Ev.checkBucket, Ev.checkTable] ++ (uploadTestFile env).2 ++
          (Ev.sleepMs 3000 :: (waitForProcessing env.pollOutcomes 10 2000).2) ++
          [Ev.verifyScan, Ev.sleepMs 2000, Ev.apiInvoke, Ev.cleanup] }

/-- Environment fixing the outcome of every external call scripts/setup.js
makes. -/
structure SetupEnv where
  packageJsonExists : Bool
  npmInstallOk : Bool
  dockerPsOk : Bool
  composeUpOk : Bool
  deployOk : Bool
  testScriptExists : Bool
  basicTestOk : Bool
deriving DecidableEq, Repr

/-- Observable steps of scripts/setup.js; runBasicTest records the result
of the test command, which the script discards. -/
inductive SetupStep where
  | checkPackageJson
  | npmInstall
  | dockerPs
  | composeUp
  | noopTimer (ms : Nat)
  | sleepCmd (sec : Nat)
  | deploy
  | checkTestScript
  | runBasicTest (ok : Bool)
deriving DecidableEq, Repr

/-- The top-level script of scripts/setup.js: the directory check, npm
install, docker ps, docker-compose up and serverless deploy each terminate
the process with exit code 1 on failure; the wait step registers a no-op
timer and shells out to a blocking 30-second sleep; the basic test runs
only if its file exists and its result is discarded, so the script then
ends with implicit exit code 0. -/
def setup (env : SetupEnv) : Nat × List SetupStep :=
  if env.packageJsonExists = false then
    (1, [SetupStep.checkPackageJson])
  else if env.npmInstallOk = false then
    (1, [SetupStep.checkPackageJson, SetupStep.npmInstall])
  else if env.dockerPsOk = false then
    (1, [SetupStep.checkPackageJson, SetupStep.npmInstall, SetupStep.dockerPs])
  else if env.composeUpOk = false then
    (1, [SetupStep.checkPackageJson, SetupStep.npmInstall, SetupStep.dockerPs,
      SetupStep.composeUp])
  else if env.deployOk = false then
    (1, [SetupStep.checkPackageJson, SetupStep.npmInstall, SetupStep.dockerPs,
      SetupStep.composeUp, SetupStep.noopTimer 30000, SetupStep.sleepCmd 30,
      SetupStep.deploy])
  else
    (0, [SetupStep.checkPackageJson, SetupStep.npmInstall, SetupStep.dockerPs,
      SetupStep.composeUp, SetupStep.noopTimer 30000, SetupStep.sleepCmd 30,
      SetupStep.deploy, SetupStep.checkTestScript] ++
      (if env.testScriptExists then [SetupStep.runBasicTest env.basicTestOk] else []))

/-- Observable effects of the wait step of setup.js: a blocking wait of some
seconds, or printed output. -/
inductive Obs where
  | waitSec (sec : Nat)
  | printed (s : String)
deriving DecidableEq, Repr

/-- Synchronous commands of a node script fragment, with a timer callback
represented by the list of effects it would perform when fired. -/
inductive Cmd where
  | setTimeoutCmd (delayMs : Nat) (callbackEffects : List Obs)
  | execSleepCmd (sec : Nat)
  | printCmd (s : String)
deriving DecidableEq, Repr

/-- Run the synchronous body of a script fragment: from a current time in
ms and a queue of registered timers (due time, callback effects), return the
end time, the final timer queue and the trace of effects. setTimeout only
registers its callback; execSync sleep blocks, advancing time. -/
def runSync : Nat → List (Nat × List Obs) → List Cmd → Nat × List (Nat × List Obs) × List Obs
  | t, timers, [] => (t, timers, [])
  | t, timers, Cmd.setTimeoutCmd d effs :: rest => runSync t (timers ++ [(t + d, effs)]) rest
  | t, timers, Cmd.execSleepCmd s :: rest =>
    ((runSync (t + s * 1000) timers rest).1, (runSync (t + s * 1000) timers rest).2.1,
      Obs.waitSec s :: (runSync (t + s * 1000) timers rest).2.2)
  | t, timers, Cmd.printCmd s :: rest =>
    ((runSync t timers rest).1, (runSync t timers rest).2.1,
      Obs.printed s :: (runSync t timers rest).2.2)

/-- After the synchronous body ends, the event loop keeps the process alive
until every pending timer has fired, firing each callback at its due time
(or at once if already due): returns the process end time and the effects of
the fired callbacks. -/
def drainLoop : Nat → List (Nat × List Obs) → Nat × List Obs
  | t, [] => (t, [])
  | t, (due, effs) :: rest =>
    ((drainLoop (max t due) rest).1, effs ++ (drainLoop (max t due) rest).2)

/-- Full observable behavior of a script fragment: the trace of effects of
the synchronous body followed by those of fired timers, and the time at
which the process ends. -/
def runProgram (cmds : List Cmd) : List Obs × Nat :=
  ((runSync 0 [] cmds).2.2 ++ (drainLoop (runSync 0 [] cmds).1 (runSync 0 [] cmds).2.1).2,
    (drainLoop (runSync 0 [] cmds).1 (runSync 0 [] cmds).2.1).1)

/-- The wait step as written in setup.js: a timer with an empty callback and
a 30000 ms delay, then a blocking 30-second sleep via execSync. -/
def waitStepSource : List Cmd := [Cmd.setTimeoutCmd 30000 [], Cmd.execSleepCmd 30]

/-- The wait step the spec proposes instead: a single explicit 30-second
blocking wait. -/
def waitStepSingle : List Cmd := [Cmd.execSleepCmd 30]

/-- Sample scan-outcome sequence: first attempt throws, the rest are empty. -/
def pollErrThenEmpty : Nat → Attempt :=
  fun k => if k = 0 then Attempt.err else Attempt.empty

/-- Sample scan-outcome sequence: second attempt returns items, the others
none. -/
def pollSecondHit : Nat → Attempt :=
  fun k => if k = 1 then Attempt.nonEmpty else Attempt.empty

/-- Sample environment in which every external call succeeds. -/
def envAllGood : Env where
  localStackUp := true
  bucketExists := true
  tableAccessible := true
  fixtureExists := true
  readFixtureThrows := false
  putObjectOk := true
  pollOutcomes := fun _ => Attempt.nonEmpty
  verifyOutcome := VerifyOutcome.items [requiredFields]
  apiOutcome := ApiOutcome.resp 201 (BodyOutcome.parsed (some "42"))

/-- Sample environment in which the fixture exists but reading it throws. -/
def envFixtureUnreadable : Env := { envAllGood with readFixtureThrows := true }

/-- Sample environment in which the emulator is unreachable. -/
def envNoLocalStack : Env := { envAllGood with localStackUp := false }

/-- Sample environment in which the bucket is absent. -/
def envNoBucket : Env := { envAllGood with bucketExists := false }

/-- Sample environment in which the test fixture file is absent. -/
def envNoFixture : Env := { envAllGood with fixtureExists := false }

/-- Sample record missing the fields timestamp, preco and source_file. -/
def sampleRecord : List String := ["id", "nome", "extra"]

/-- Sample setup environment in which everything succeeds except the basic
test command. -/
def setupEnvTestFails : SetupEnv where
  packageJsonExists := true
  npmInstallOk := true
  dockerPsOk := true
  composeUpOk := true
  deployOk := true
  testScriptExists := true
  basicTestOk := false

/-- Sample setup environment in which every step succeeds. -/
def setupEnvAllOk : SetupEnv := { setupEnvTestFails with basicTestOk := true }

theorem wfpAux_numScans_le (f : Nat → Attempt) (M i n : Nat) :
    numScans (wfpAux f M i n).2 ≤ n := by
  induction n generalizing i with
  | zero => simp [wfpAux, numScans]
  | succ n ih =>
    cases h : f i with
    | nonEmpty => simp [wfpAux, h, numScans, isScan]
    | empty =>
      have := ih (i + 1)
      simp only [wfpAux, h, numScans, isScan, if_neg, if_pos, Bool.false_eq_true,
        ite_false, ite_true]
      omega
    | err =>
      have := ih (i + 1)
      simp only [wfpAux, h, numScans, isScan, if_neg, if_pos, Bool.false_eq_true,
        ite_false, ite_true]
      omega

theorem wfpAux_true_iff (f : Nat → Attempt) (M i n : Nat) :
    (wfpAux f M i n).1 = true ↔ ∃ k, k < n ∧ f (i + k) = Attempt.nonEmpty := by
  induction n generalizing i with
  | zero => simp [wfpAux]
  | succ n ih =>
    cases h : f i with
    | nonEmpty =>
      simp only [wfpAux, h]
      constructor
      · intro _
        exact ⟨0, Nat.succ_pos n, by simpa using h⟩
      · intro _
        trivial
    | empty =>
      simp only [wfpAux, h]
      rw [ih (i + 1)]
      constructor
      · rintro ⟨k, hk, hf⟩
        refine ⟨k + 1, by omega, ?_⟩
        have he : i + (k + 1) = i + 1 + k := by omega
        rw [he]
        exact hf
      · rintro ⟨k, hk, hf⟩
        cases k with
        | zero =>
          exfalso
          simp only [Nat.add_zero] at hf
          rw [h] at hf
          exact absurd hf (by simp)
        | succ k =>
          refine ⟨k, by omega, ?_⟩
          have he : i + 1 + k = i + (k + 1) := by omega
          rw [he]
          exact hf
    | err =>
      simp only [wfpAux, h]
      rw [ih (i + 1)]
      constructor
      · rintro ⟨k, hk, hf⟩
        refine ⟨k + 1, by omega, ?_⟩
        have he : i + (k + 1) = i + 1 + k := by omega
        rw [he]
        exact hf
      · rintro ⟨k, hk, hf⟩
        cases k with
        | zero =>
          exfalso
          simp only [Nat.add_zero] at hf
          rw [h] at hf
          exact absurd hf (by simp)
        | succ k =>
          refine ⟨k, by omega, ?_⟩
          have he : i + 1 + k = i + (k + 1) := by omega
          rw [he]
          exact hf

theorem wfpAux_sleep_val (f : Nat → Attempt) (M i n : Nat) :
    ∀ ms, Ev.sleepMs ms ∈ (wfpAux f M i n).2 → ms = M := by
  induction n generalizing i with
  | zero => simp [wfpAux]
  | succ n ih =>
    intro ms hm
    cases h : f i with
    | nonEmpty =>
      rw [wfpAux, h] at hm
      simp at hm
    | empty =>
      rw [wfpAux, h] at hm
      simp only [List.mem_cons] at hm
      rcases hm with h1 | h2 | h3
      · exact absurd h1 (by simp)
      · exact (Ev.sleepMs.injEq ms M).mp h2
      · exact ih (i + 1) ms h3
    | err =>
      rw [wfpAux, h] at hm
      simp only [List.mem_cons] at hm
      rcases hm with h1 | h2
      · exact absurd h1 (by simp)
      · exact ih (i + 1) ms h2

theorem wfpAux_success_scans (f : Nat → Attempt) (M i n : Nat) :
    (wfpAux f M i n).1 = true →
    ∃ k, k < n ∧ f (i + k) = Attempt.nonEmpty ∧
      (∀ j, j < k → f (i + j) ≠ Attempt.nonEmpty) ∧
      numScans (wfpAux f M i n).2 = k + 1 := by
  induction n generalizing i with
  | zero => simp [wfpAux]
  | succ n ih =>
    intro htrue
    cases h : f i with
    | nonEmpty =>
      refine ⟨0, Nat.succ_pos n, by simpa using h, by omega, ?_⟩
      simp [wfpAux, h, numScans, isScan]
    | empty =>
      rw [wfpAux, h] at htrue
      obtain ⟨k, hk, hf, hprev, hcount⟩ := ih (i + 1) htrue
      refine ⟨k + 1, by omega, ?_, ?_, ?_⟩
      · have he : i + (k + 1) = i + 1 + k := by omega
        rw [he]
        exact hf
      · intro j hj
        cases j with
        | zero => simpa [Nat.add_zero] using (by rw [h]; simp : f i ≠ Attempt.nonEmpty)
        | succ j =>
          have he : i + (j + 1) = i + 1 + j := by omega
          rw [he]
          exact hprev j (by omega)
      · rw [wfpAux, h]
        simp only [numScans, isScan, Bool.false_eq_true, ite_false, ite_true]
        omega
    | err =>
      rw [wfpAux, h] at htrue
      obtain ⟨k, hk, hf, hprev, hcount⟩ := ih (i + 1) htrue
      refine ⟨k + 1, by omega, ?_, ?_, ?_⟩
      · have he : i + (k + 1) = i + 1 + k := by omega
        rw [he]
        exact hf
      · intro j hj
        cases j with
        | zero => simpa [Nat.add_zero] using (by rw [h]; simp : f i ≠ Attempt.nonEmpty)
        | succ j =>
          have he : i + (j + 1) = i + 1 + j := by omega
          rw [he]
          exact hprev j (by omega)
      · rw [wfpAux, h]
        simp only [numScans, isScan, Bool.false_eq_true, ite_false, ite_true]
        omega

theorem wfpAux_allfail (f : Nat → Attempt) (M i n : Nat)
    (h : ∀ k, k < n → f (i + k) ≠ Attempt.nonEmpty) :
    (wfpAux f M i n).1 = false ∧
    numScans (wfpAux f M i n).2 = n ∧
    numSleeps (wfpAux f M i n).2 = countEmptiesFrom f i n := by
  induction n generalizing i with
  | zero => simp [wfpAux, numScans, numSleeps, countEmptiesFrom]
  | succ n ih =>
    have h0 : f i ≠ Attempt.nonEmpty := by
      have := h 0 (Nat.succ_pos n)
      simpa using this
    have hrest : ∀ k, k < n → f (i + 1 + k) ≠ Attempt.nonEmpty := by
      intro k hk
      have he : i + 1 + k = i + (k + 1) := by omega
      rw [he]
      exact h (k + 1) (by omega)
    obtain ⟨hres, hsc, hsl⟩ := ih (i + 1) hrest
    cases hfi : f i with
    | nonEmpty => exact absurd hfi h0
    | empty =>
      refine ⟨?_, ?_, ?_⟩
      · rw [wfpAux, hfi]
        exact hres
      · rw [wfpAux, hfi]
        simp only [numScans, isScan, Bool.false_eq_true, ite_false, ite_true]
        omega
      · rw [wfpAux, hfi]
        simp only [numSleeps, isSleep, Bool.false_eq_true, ite_false, ite_true,
          countEmptiesFrom, hfi, if_pos]
        omega
    | err =>
      refine ⟨?_, ?_, ?_⟩
      · rw [wfpAux, hfi]
        exact hres
      · rw [wfpAux, hfi]
        simp only [numScans, isScan, Bool.false_eq_true, ite_false, ite_true]
        omega
      · rw [wfpAux, hfi]
        simp only [numSleeps, isSleep, Bool.false_eq_true, ite_false, ite_true]
        rw [countEmptiesFrom]
        simp only [hfi]
        simp only [reduceCtorEq, ite_false]
        omega

theorem wfpAux_allfail_endsSleep (f : Nat → Attempt) (M i n : Nat)
    (h : ∀ k, k < n → f (i + k) ≠ Attempt.nonEmpty) (hn : 0 < n)
    (hl : f (i + (n - 1)) = Attempt.empty) :
    ∃ pre, (wfpAux f M i n).2 = pre ++ [Ev.sleepMs M] := by
  induction n generalizing i with
  | zero => omega
  | succ n ih =>
    have h0 : f i ≠ Attempt.nonEmpty := by
      have := h 0 (Nat.succ_pos n)
      simpa using this
    cases hzero : Nat.decEq n 0 with
    | isTrue hz =>
      subst hz
      have hfi : f i = Attempt.empty := by simpa using hl
      refine ⟨[Ev.scan i], ?_⟩
      rw [wfpAux, hfi]
      simp [wfpAux]
    | isFalse hz =>
      have hrest : ∀ k, k < n → f (i + 1 + k) ≠ Attempt.nonEmpty := by
        intro k hk
        have he : i + 1 + k = i + (k + 1) := by omega
        rw [he]
        exact h (k + 1) (by omega)
      have hl2 : f (i + 1 + (n - 1)) = Attempt.empty := by
        have he : i + 1 + (n - 1) = i + (n + 1 - 1) := by omega
        rw [he]
        exact hl
      obtain ⟨pre, hpre⟩ := ih (i + 1) hrest (by omega) hl2
      cases hfi : f i with
      | nonEmpty => exact absurd hfi h0
      | empty =>
        refine ⟨Ev.scan i :: Ev.sleepMs M :: pre, ?_⟩
        rw [wfpAux, hfi]
        simp [hpre]
      | err =>
        refine ⟨Ev.scan i :: pre, ?_⟩
        rw [wfpAux, hfi]
        simp [hpre]

theorem wfpAux_no_putObject (f : Nat → Attempt) (M i n : Nat) :
    Ev.putObject ∉ (wfpAux f M i n).2 := by
  induction n generalizing i with
  | zero => simp [wfpAux]
  | succ n ih =>
    cases h : f i with
    | nonEmpty => simp [wfpAux, h]
    | empty =>
      rw [wfpAux, h]
      simp only [List.mem_cons, not_or]
      exact ⟨by simp, by simp, ih (i + 1)⟩
    | err =>
      rw [wfpAux, h]
      simp only [List.mem_cons, not_or]
      exact ⟨by simp, ih (i + 1)⟩

/-- Claim C1 counterexample: with a budget of one attempt whose single table
scan throws, waitForProcessing returns failure (the timeout report) although
that attempt observed an error, not an empty result, so failure is not
returned only after all attempts observe an empty result. -/
theorem waitForProcessing_timeout_cex :
    (waitForProcessing (fun _ => Attempt.err) 1 2000).1 = false ∧
    (fun _ => Attempt.err) 0 = Attempt.err ∧
    Attempt.err ≠ Attempt.empty := by
  decide

/-- Claim C1 (amended): a run of waitForProcessing with attempt budget N and
interval M performs at most N table scans, every sleep lasts M milliseconds,
it returns success exactly when some of the first N attempts observes a
non-empty result and then stops at the first such scan, and it returns
failure (reporting a timeout) exactly when all N attempts observe an empty
result or a scan error, that is, none observes a non-empty result. -/
theorem waitForProcessing_polling_spec (f : Nat → Attempt) (N M : Nat) :
    numScans (waitForProcessing f N M).2 ≤ N ∧
    (∀ ms, Ev.sleepMs ms ∈ (waitForProcessing f N M).2 → ms = M) ∧
    ((waitForProcessing f N M).1 = true ↔ ∃ k, k < N ∧ f k = Attempt.nonEmpty) ∧
    ((waitForProcessing f N M).1 = true →
      ∃ k, k < N ∧ f k = Attempt.nonEmpty ∧ (∀ j, j < k → f j ≠ Attempt.nonEmpty) ∧
        numScans (waitForProcessing f N M).2 = k + 1) ∧
    ((waitForProcessing f N M).1 = false ↔ ∀ k, k < N → f k ≠ Attempt.nonEmpty) := by
  unfold waitForProcessing
  have hiff : (wfpAux f M 0 N).1 = true ↔ ∃ k, k < N ∧ f k = Attempt.nonEmpty := by
    have := wfpAux_true_iff f M 0 N
    simpa using this
  refine ⟨wfpAux_numScans_le f M 0 N, wfpAux_sleep_val f M 0 N, hiff, ?_, ?_⟩
  · intro h
    obtain ⟨k, hk, hf, hprev, hc⟩ := wfpAux_success_scans f M 0 N h
    exact ⟨k, hk, by simpa using hf, fun j hj => by simpa using hprev j hj, hc⟩
  · constructor
    · intro hfalse k hk hfk
      have htrue : (wfpAux f M 0 N).1 = true := hiff.mpr ⟨k, hk, hfk⟩
      rw [hfalse] at htrue
      exact absurd htrue (by simp)
    · intro hall
      cases hb : (wfpAux f M 0 N).1 with
      | false => rfl
      | true =>
        obtain ⟨k, hk, hf⟩ := hiff.mp hb
        exact absurd hf (hall k hk)

/-- Claim C1 witness: the amended polling specification evaluated on the
sample sequence whose second attempt returns items, with budget 3 and
interval 2000 ms. -/
theorem waitForProcessing_polling_spec_wit :
    numScans (waitForProcessing pollSecondHit 3 2000).2 ≤ 3 ∧
    (∀ ms, Ev.sleepMs ms ∈ (waitForProcessing pollSecondHit 3 2000).2 → ms = 2000) ∧
    ((waitForProcessing pollSecondHit 3 2000).1 = true ↔
      ∃ k, k < 3 ∧ pollSecondHit k = Attempt.nonEmpty) ∧
    ((waitForProcessing pollSecondHit 3 2000).1 = true →
      ∃ k, k < 3 ∧ pollSecondHit k = Attempt.nonEmpty ∧
        (∀ j, j < k → pollSecondHit j ≠ Attempt.nonEmpty) ∧
        numScans (waitForProcessing pollSecondHit 3 2000).2 = k + 1) ∧
    ((waitForProcessing pollSecondHit 3 2000).1 = false ↔
      ∀ k, k < 3 → pollSecondHit k ≠ Attempt.nonEmpty) :=
  waitForProcessing_polling_spec pollSecondHit 3 2000

/-- Claim C9: in a run of waitForProcessing in which no attempt observes a
non-empty result, the loop returns failure having consumed the whole budget
(scans that threw count like empty ones), the number of sleeps equals the
number of attempts that observed an empty result (erroring attempts proceed
to the next attempt without sleeping), every sleep lasts the configured
interval, and when the final attempt observed an empty result the trace ends
with a sleep, that is, the loop also sleeps after the final attempt before
reporting the timeout. -/
theorem waitForProcessing_err_vs_empty (f : Nat → Attempt) (N M : Nat)
    (h : ∀ k, k < N → f k ≠ Attempt.nonEmpty) :
    (waitForProcessing f N M).1 = false ∧
    numScans (waitForProcessing f N M).2 = N ∧
    numSleeps (waitForProcessing f N M).2 = countEmptiesFrom f 0 N ∧
    (∀ ms, Ev.sleepMs ms ∈ (waitForProcessing f N M).2 → ms = M) ∧
    (0 < N → f (N - 1) = Attempt.empty →
      ∃ pre, (waitForProcessing f N M).2 = pre ++ [Ev.sleepMs M]) := by
  unfold waitForProcessing
  have h0 : ∀ k, k < N → f (0 + k) ≠ Attempt.nonEmpty := by
    intro k hk
    simpa using h k hk
  obtain ⟨ha, hb, hc⟩ := wfpAux_allfail f M 0 N h0
  refine ⟨ha, hb, hc, wfpAux_sleep_val f M 0 N, ?_⟩
  intro hn hl
  exact wfpAux_allfail_endsSleep f M 0 N h0 hn (by simpa using hl)

/-- Claim C9 witness: the error-versus-empty specification evaluated on the
sample sequence whose first attempt throws and second observes an empty
result, with budget 2 and interval 2000 ms. -/
theorem waitForProcessing_err_vs_empty_wit :
    (∀ k, k < 2 → pollErrThenEmpty k ≠ Attempt.nonEmpty) ∧
    ((waitForProcessing pollErrThenEmpty 2 2000).1 = false ∧
      numScans (waitForProcessing pollErrThenEmpty 2 2000).2 = 2 ∧
      numSleeps (waitForProcessing pollErrThenEmpty 2 2000).2 =
        countEmptiesFrom pollErrThenEmpty 0 2 ∧
      (∀ ms, Ev.sleepMs ms ∈ (waitForProcessing pollErrThenEmpty 2 2000).2 → ms = 2000) ∧
      (0 < 2 → pollErrThenEmpty (2 - 1) = Attempt.empty →
        ∃ pre, (waitForProcessing pollErrThenEmpty 2 2000).2 = pre ++ [Ev.sleepMs 2000])) :=
  ⟨by decide, waitForProcessing_err_vs_empty pollErrThenEmpty 2 2000 (by decide)⟩

/-- Claim C2 counterexample: in the sample environment in which the
emulator, bucket and table checks all succeed but the existing fixture file
cannot be read, the fixture read throws outside the try/catch of
uploadTestFile, so the exception reaches the top-level catch handler and
the process exits with code 1 although the initial availability checks
succeeded, and the upload failure never reaches the allPassed flag. -/
theorem main_upload_throw_cex :
    (envFixtureUnreadable.localStackUp && envFixtureUnreadable.bucketExists &&
      envFixtureUnreadable.tableAccessible) = true ∧
    (main envFixtureUnreadable).exitCode = 1 ∧
    (main envFixtureUnreadable).exitCode ≠ 0 ∧
    (main envFixtureUnreadable).allPassed = none := by
  decide

/-- Claim C2 (amended): the test runner exits with code 0 exactly when the
emulator, bucket and table checks all succeed and the upload step does not
throw an uncaught exception (the fixture read is its one uncaught call),
and with code 1 exactly when a check fails or that read throws; whenever
the checks succeed and the upload step returns a boolean, the exit code is
0 and the outcomes of upload, polling, verification and API test are
recorded only in the allPassed flag that picks the final summary message. -/
theorem main_exit_spec (env : Env) :
    ((main env).exitCode = 0 ↔
      (env.localStackUp && env.bucketExists && env.tableAccessible) = true ∧
        (uploadTestFile env).1 ≠ UploadResult.thrown) ∧
    ((main env).exitCode = 1 ↔
      (env.localStackUp && env.bucketExists && env.tableAccessible) = false ∨
        (uploadTestFile env).1 = UploadResult.thrown) ∧
    ((env.localStackUp && env.bucketExists && env.tableAccessible) = true →
      ∀ b, (uploadTestFile env).1 = UploadResult.ok b →
        (main env).exitCode = 0 ∧
        (main env).allPassed = some (b &&
          (waitForProcessing env.pollOutcomes 10 2000).1 &&
          (verifyData env.verifyOutcome).1 && (testApi env.apiOutcome).1)) := by
  cases h1 : env.localStackUp <;> cases h2 : env.bucketExists <;>
    cases h3 : env.tableAccessible <;> cases h4 : env.fixtureExists <;>
      cases h5 : env.readFixtureThrows <;>
        simp [main, checkLocalStack, checkBucket, checkTable, uploadTestFile,
          h1, h2, h3, h4, h5]

/-- Claim C2 witness: the amended exit-code specification evaluated on the
sample environment in which every external call succeeds. -/
theorem main_exit_spec_wit :
    ((main envAllGood).exitCode = 0 ↔
      (envAllGood.localStackUp && envAllGood.bucketExists &&
        envAllGood.tableAccessible) = true ∧
        (uploadTestFile envAllGood).1 ≠ UploadResult.thrown) ∧
    ((main envAllGood).exitCode = 1 ↔
      (envAllGood.localStackUp && envAllGood.bucketExists &&
        envAllGood.tableAccessible) = false ∨
        (uploadTestFile envAllGood).1 = UploadResult.thrown) ∧
    ((envAllGood.localStackUp && envAllGood.bucketExists &&
        envAllGood.tableAccessible) = true →
      ∀ b, (uploadTestFile envAllGood).1 = UploadResult.ok b →
        (main envAllGood).exitCode = 0 ∧
        (main envAllGood).allPassed = some (b &&
          (waitForProcessing envAllGood.pollOutcomes 10 2000).1 &&
          (verifyData envAllGood.verifyOutcome).1 && (testApi envAllGood.apiOutcome).1)) :=
  main_exit_spec envAllGood

/-- Claim C3: when the emulator is unreachable (the initial listBuckets call
fails), the test runner exits with code 1 and its whole trace is that single
check, so no resource check, upload, polling or API invocation happens. -/
theorem main_emulator_down (env : Env) (h : env.localStackUp = false) :
    main env = { exitCode := 1, allPassed := none, events := [Ev.checkLocalStack] } := by
  simp [main, checkLocalStack, h]

/-- Claim C3 witness: the emulator-down behavior on the sample environment
whose emulator is unreachable. -/
theorem main_emulator_down_wit :
    main envNoLocalStack =
      { exitCode := 1, allPassed := none, events := [Ev.checkLocalStack] } :=
  main_emulator_down envNoLocalStack (by decide)

/-- Claim C4: when the emulator responds but the bucket or the table check
fails, the test runner exits with code 1 and its trace contains no fixture
stat, no fixture read and no putObject call, so it stops before attempting
the file upload. -/
theorem main_resources_missing (env : Env) (h1 : env.localStackUp = true)
    (h2 : env.bucketExists = false ∨ env.tableAccessible = false) :
    (main env).exitCode = 1 ∧
    Ev.statFixture ∉ (main env).events ∧
    Ev.readFixture ∉ (main env).events ∧
    Ev.putObject ∉ (main env).events := by
  rcases h2 with h2 | h2
  · simp [main, checkLocalStack, checkBucket, h1, h2]
  · cases hb : env.bucketExists <;>
      simp [main, checkLocalStack, checkBucket, checkTable, h1, h2, hb]

/-- Claim C4 witness: the missing-resource behavior on the sample
environment whose bucket is absent. -/
theorem main_resources_missing_wit :
    (main envNoBucket).exitCode = 1 ∧
    Ev.statFixture ∉ (main envNoBucket).events ∧
    Ev.readFixture ∉ (main envNoBucket).events ∧
    Ev.putObject ∉ (main envNoBucket).events :=
  main_resources_missing envNoBucket (by decide) (Or.inl (by decide))

/-- Claim C5: verifyData checks the returned record against the fixed
field-name list id, timestamp, nome, preco, source_file by presence only:
when at least one record exists the step returns success regardless of
missing fields, the warned-about fields are exactly the required fields
absent from the record, and with no record the step fails. -/
theorem verifyData_spec (first : List String) (rest : List (List String)) :
    requiredFields = ["id", "timestamp", "nome", "preco", "source_file"] ∧
    (verifyData (VerifyOutcome.items (first :: rest))).1 = true ∧
    (∀ field, field ∈ requiredFields → field ∉ first →
      field ∈ (verifyData (VerifyOutcome.items (first :: rest))).2) ∧
    (∀ field, field ∈ (verifyData (VerifyOutcome.items (first :: rest))).2 →
      field ∈ requiredFields ∧ field ∉ first) ∧
    (verifyData (VerifyOutcome.items [])).1 = false := by
  refine ⟨rfl, rfl, ?_, ?_, rfl⟩
  · intro field hreq habs
    simp only [verifyData, missingFields, List.mem_filter, Bool.not_eq_eq_eq_not,
      Bool.not_true]
    refine ⟨hreq, ?_⟩
    simpa using habs
  · intro field hmem
    simp only [verifyData, missingFields, List.mem_filter, Bool.not_eq_eq_eq_not,
      Bool.not_true] at hmem
    refine ⟨hmem.1, ?_⟩
    simpa using hmem.2

/-- Claim C5 witness: the verification specification evaluated on the sample
record that misses the fields timestamp, preco and source_file. -/
theorem verifyData_spec_wit :
    requiredFields = ["id", "timestamp", "nome", "preco", "source_file"] ∧
    (verifyData (VerifyOutcome.items [sampleRecord])).1 = true ∧
    (∀ field, field ∈ requiredFields → field ∉ sampleRecord →
      field ∈ (verifyData (VerifyOutcome.items [sampleRecord])).2) ∧
    (∀ field, field ∈ (verifyData (VerifyOutcome.items [sampleRecord])).2 →
      field ∈ requiredFields ∧ field ∉ sampleRecord) ∧
    (verifyData (VerifyOutcome.items [])).1 = false :=
  verifyData_spec sampleRecord []

/-- Claim C6: assuming every response with status code 201 carries a
parseable body with an identifier, testApi reports success exactly when the
invoke yields a response whose status code is 201, in which case the body
identifier is the one reported; any response with another status code makes
the step return failure. -/
theorem testApi_spec (o : ApiOutcome)
    (h : ∀ b, o = ApiOutcome.resp 201 b → ∃ ident, b = BodyOutcome.parsed (some ident)) :
    ((testApi o).1 = true ↔ ∃ b, o = ApiOutcome.resp 201 b) ∧
    (∀ ident, o = ApiOutcome.resp 201 (BodyOutcome.parsed ident) →
      (testApi o).2 = some ident) ∧
    (∀ s b, o = ApiOutcome.resp s b → s ≠ 201 → (testApi o).1 = false) := by
  cases o with
  | invokeErr =>
    refine ⟨by simp [testApi], ?_, ?_⟩
    · intro ident heq
      exact absurd heq (by simp)
    · intro s b heq
      exact absurd heq (by simp)
  | payloadUnparseable =>
    refine ⟨by simp [testApi], ?_, ?_⟩
    · intro ident heq
      exact absurd heq (by simp)
    · intro s b heq
      exact absurd heq (by simp)
  | resp s body =>
    by_cases hs : s = 201
    · subst hs
      obtain ⟨ident, hident⟩ := h body rfl
      subst hident
      refine ⟨?_, ?_, ?_⟩
      · simp [testApi]
      · intro ident2 heq
        have hb : BodyOutcome.parsed (some ident) = BodyOutcome.parsed ident2 := by
          injection heq
        have : (some ident : Option String) = ident2 := by injection hb
        simp [testApi, this]
      · intro s2 b2 heq hne
        exfalso
        apply hne
        injection heq with hs2 hb2
        exact hs2.symm
    · refine ⟨?_, ?_, ?_⟩
      · constructor
        · intro htrue
          exfalso
          simp only [testApi, if_neg hs] at htrue
          exact absurd htrue (by simp)
        · rintro ⟨b, hb⟩
          exfalso
          apply hs
          injection hb with hs2 hb2
      · intro ident heq
        exfalso
        apply hs
        injection heq with hs2 hb2
      · intro s2 b2 heq hne
        simp [testApi, if_neg hs]

/-- Claim C6 witness: the API-test specification evaluated on a response
with status code 201 whose body parses to the identifier 42. -/
theorem testApi_spec_wit :
    ((testApi (ApiOutcome.resp 201 (BodyOutcome.parsed (some "42")))).1 = true ↔
      ∃ b, ApiOutcome.resp 201 (BodyOutcome.parsed (some "42")) = ApiOutcome.resp 201 b) ∧
    (∀ ident, ApiOutcome.resp 201 (BodyOutcome.parsed (some "42")) =
        ApiOutcome.resp 201 (BodyOutcome.parsed ident) →
      (testApi (ApiOutcome.resp 201 (BodyOutcome.parsed (some "42")))).2 = some ident) ∧
    (∀ s b, ApiOutcome.resp 201 (BodyOutcome.parsed (some "42")) = ApiOutcome.resp s b →
      s ≠ 201 → (testApi (ApiOutcome.resp 201 (BodyOutcome.parsed (some "42")))).1 = false) :=
  testApi_spec (ApiOutcome.resp 201 (BodyOutcome.parsed (some "42")))
    (by
      intro b hb
      refine ⟨"42", ?_⟩
      injection hb with h1 h2
      exact h2.symm)

/-- Claim C10: when the availability checks pass but the local test fixture
file does not exist, uploadTestFile returns failure having only checked for
the file, without reading it or calling putObject; the run still ends with
exit code 0 and the failure is recorded in the allPassed flag, so the
missing fixture is a recoverable step failure, not a fatal exit. -/
theorem uploadTestFile_missing_fixture (env : Env) (h1 : env.localStackUp = true)
    (h2 : env.bucketExists = true) (h3 : env.tableAccessible = true)
    (h4 : env.fixtureExists = false) :
    (uploadTestFile env).1 = UploadResult.ok false ∧
    (uploadTestFile env).2 = [Ev.statFixture] ∧
    Ev.putObject ∉ (uploadTestFile env).2 ∧
    (main env).exitCode = 0 ∧
    (main env).allPassed = some false ∧
    Ev.putObject ∉ (main env).events := by
  have hup : uploadTestFile env = (UploadResult.ok false, [Ev.statFixture]) := by
    simp [uploadTestFile, h4]
  have hpoll := wfpAux_no_putObject env.pollOutcomes 2000 0 10
  refine ⟨by rw [hup], by rw [hup], by rw [hup]; simp, ?_, ?_, ?_⟩
  · simp [main, checkLocalStack, checkBucket, checkTable, h1, h2, h3, hup]
  · simp [main, checkLocalStack, checkBucket, checkTable, h1, h2, h3, hup]
  · simp [main, checkLocalStack, checkBucket, checkTable, h1, h2, h3, hup,
      waitForProcessing, hpoll]

/-- Claim C10 witness: the missing-fixture behavior on the sample
environment whose fixture file is absent. -/
theorem uploadTestFile_missing_fixture_wit :
    (uploadTestFile envNoFixture).1 = UploadResult.ok false ∧
    (uploadTestFile envNoFixture).2 = [Ev.statFixture] ∧
    Ev.putObject ∉ (uploadTestFile envNoFixture).2 ∧
    (main envNoFixture).exitCode = 0 ∧
    (main envNoFixture).allPassed = some false ∧
    Ev.putObject ∉ (main envNoFixture).events :=
  uploadTestFile_missing_fixture envNoFixture (by decide) (by decide) (by decide) (by decide)

/-- Claim C7 counterexample: in the setup environment in which every step
succeeds except the basic test command, the basic test runs and fails, yet
the setup script ends with exit code 0, so a failure of the basic test step
does not terminate the process with a non-zero exit code. -/
theorem setup_basicTest_ignored_cex :
    (setup setupEnvTestFails).1 = 0 ∧
    SetupStep.runBasicTest false ∈ (setup setupEnvTestFails).2 ∧
    (setup setupEnvTestFails).1 ≠ 1 := by
  decide

/-- Claim C7 (amended): the setup script exits with code 1 exactly when the
directory check, the dependency install, the container-runtime check, the
emulator start or the deployment fails, and with code 0 otherwise; the
result of the final basic test is discarded and never changes the exit
code. -/
theorem setup_exit_spec (env : SetupEnv) :
    ((setup env).1 = 1 ↔
      (env.packageJsonExists && env.npmInstallOk && env.dockerPsOk && env.composeUpOk &&
        env.deployOk) = false) ∧
    ((setup env).1 = 0 ↔
      (env.packageJsonExists && env.npmInstallOk && env.dockerPsOk && env.composeUpOk &&
        env.deployOk) = true) ∧
    (∀ b, (setup { env with basicTestOk := b }).1 = (setup env).1) := by
  rcases env with ⟨p, ni, dp, cu, dep, ts, bt⟩
  cases p <;> cases ni <;> cases dp <;> cases cu <;> cases dep <;> cases ts <;> cases bt <;>
    exact ⟨by decide, by decide, fun b => by cases b <;> decide⟩

/-- Claim C7 witness: the amended setup exit specification evaluated on the
sample setup environment in which every step succeeds. -/
theorem setup_exit_spec_wit :
    ((setup setupEnvAllOk).1 = 1 ↔
      (setupEnvAllOk.packageJsonExists && setupEnvAllOk.npmInstallOk &&
        setupEnvAllOk.dockerPsOk && setupEnvAllOk.composeUpOk &&
        setupEnvAllOk.deployOk) = false) ∧
    ((setup setupEnvAllOk).1 = 0 ↔
      (setupEnvAllOk.packageJsonExists && setupEnvAllOk.npmInstallOk &&
        setupEnvAllOk.dockerPsOk && setupEnvAllOk.composeUpOk &&
        setupEnvAllOk.deployOk) = true) ∧
    (∀ b, (setup { setupEnvAllOk with basicTestOk := b }).1 = (setup setupEnvAllOk).1) :=
  setup_exit_spec setupEnvAllOk

/-- Claim C8: the no-op timer of the setup wait step is dead code: the wait
step as written (register a timer with an empty callback and a 30000 ms
delay, then block on a 30-second sleep) has exactly the same observable
behavior, both in its trace of effects and in the time at which the process
ends, as the single explicit 30-second blocking wait, namely one 30-second
wait ending at 30000 ms. -/
theorem setup_noop_timer_dead_code :
    runProgram waitStepSource = runProgram waitStepSingle ∧
    runProgram waitStepSource = ([Obs.waitSec 30], 30000) := by
  decide

end LocalstackServerless
